import Mathlib

/-!
Verification of the Miniflare R2 object-storage gateway (packages/r2/src/bucket.ts)
and its filesystem backing engine (FileStorage).  The TypeScript source is embedded
shallowly: byte sequences are lists of naturals, JavaScript numbers appearing in
option bags are a two-case variant (a numeric value or NaN), fallible operations
return Except, and the storage substrate is an association list from keys to
value/metadata records.  External collaborators that are referenced but whose code
is not part of the gateway source (the conditional evaluator, the path sanitiser,
the cursor-based storage list primitive, and JS builtins) are modelled from the
specification and marked as such in their doc comments.
-/

namespace MF

/-! ## Byte and string helpers (kernel-reducible replacements for library string ops) -/

/-- UTF-8 encoding of a single character, as in the WHATWG TextEncoder. -/
def utf8EncodeChar (c : Char) : List Nat :=
  let n := c.toNat
  if n < 128 then [n]
  else if n < 2048 then [192 + n / 64, 128 + n % 64]
  else if n < 65536 then [224 + n / 4096, 128 + (n / 64) % 64, 128 + n % 64]
  else [240 + n / 262144, 128 + (n / 4096) % 64, 128 + (n / 64) % 64, 128 + n % 64]

/-- UTF-8 encoding of a string (TextEncoder.encode). -/
def utf8Encode (s : String) : List Nat :=
  s.data.foldl (fun acc c => acc ++ utf8EncodeChar c) []

/-- UTF-8 encoded byte length of a string (encoder.encode(key).byteLength). -/
def utf8Len (s : String) : Nat :=
  (utf8Encode s).length

/-- Strict lexicographic order on character lists (by code point). -/
def listLexLt : List Char → List Char → Bool
  | [], [] => false
  | [], _ :: _ => true
  | _ :: _, [] => false
  | a :: as, b :: bs => if a = b then listLexLt as bs else decide (a < b)

/-- Strict lexicographic order on strings. -/
def strLt (a b : String) : Bool :=
  listLexLt a.data b.data

/-- Does string s start with string p (String.prototype.startsWith / isPrefixOf)? -/
def strStartsWith (s p : String) : Bool :=
  p.data.isPrefixOf s.data

/-- First occurrence split: breakOnList sep l = some (before, after) when sep occurs
in l, where l = before ++ sep ++ after at the first occurrence. -/
def breakOnList (sep : List Char) : List Char → Option (List Char × List Char)
  | [] => none
  | c :: rest =>
    if sep.isPrefixOf (c :: rest) then some ([], (c :: rest).drop sep.length)
    else (breakOnList sep rest).map fun p => (c :: p.1, p.2)

/-- JavaScript String.prototype.includes. -/
def jsIncludes (s sub : String) : Bool :=
  (breakOnList sub.data s.data).isSome

/-- JavaScript s.split(sep)[0]: the text before the first occurrence of sep
(the whole string if sep does not occur). -/
def jsSplitFirst (s sep : String) : String :=
  match breakOnList sep.data s.data with
  | some p => ⟨p.1⟩
  | none => s

/-- JavaScript s.slice(n) for strings in the basic multilingual plane
(code-unit indexing coincides with character indexing there). -/
def charDrop (s : String) (n : Nat) : String :=
  ⟨s.data.drop n⟩

/-- JavaScript s.length for strings in the basic multilingual plane. -/
def strLen (s : String) : Nat :=
  s.data.length

/-- Lower-case hex digit for a value below 16. -/
def hexDigitChar (n : Nat) : Char :=
  if n < 10 then Char.ofNat (48 + n) else Char.ofNat (87 + n)

/-- Lower-case hex rendering of a byte sequence
(Buffer.from(bytes).toString("hex")). -/
def hexOfBytes (b : List Nat) : String :=
  ⟨b.foldr (fun x acc => hexDigitChar ((x % 256) / 16) :: hexDigitChar (x % 16) :: acc) []⟩

/-! ## R2 data model (bucket.ts) -/

/-- HTTP transfer metadata attached to an object (R2HTTPMetadata). -/
structure R2HTTPMetadata where
  contentType : Option String := none
  contentEncoding : Option String := none
  contentDisposition : Option String := none
  contentLanguage : Option String := none
  cacheControl : Option String := none
  cacheExpiry : Option Int := none
deriving DecidableEq, Repr

/-- Stored object metadata (R2ObjectMetadata from r2Object.ts, as constructed and
consumed by bucket.ts).  Timestamps are integers (milliseconds). -/
structure R2ObjectMetadata where
  key : String
  size : Nat
  etag : String
  version : String
  httpEtag : String
  uploaded : Int
  httpMetadata : R2HTTPMetadata
  customMetadata : List (String × String)
deriving DecidableEq, Repr

/-- A stored value together with its metadata (StoredValueMeta at the R2 layer). -/
structure StoredValue where
  value : List Nat
  metadata : R2ObjectMetadata
deriving DecidableEq, Repr

/-- The storage substrate state seen by the gateway: an association list from keys
to stored value/metadata records. -/
abbrev Store := List (String × StoredValue)

/-- Key lookup in the store. -/
def storeLookup : Store → String → Option StoredValue
  | [], _ => none
  | (k, e) :: rest, key => if key = k then some e else storeLookup rest key

/-- Insert or replace a key, keeping the store sorted in ascending lexicographic
key order (the substrate enumerates keys in that order). -/
def storeInsert : Store → String → StoredValue → Store
  | [], key, e => [(key, e)]
  | (k, f) :: rest, key, e =>
    if key = k then (key, e) :: rest
    else if strLt key k then (key, e) :: (k, f) :: rest
    else (k, f) :: storeInsert rest key e

/-- Remove a key from the store (storage.delete). -/
def storeErase : Store → String → Store
  | [], _ => []
  | (k, f) :: rest, key => if key = k then rest else (k, f) :: storeErase rest key

/-- A JavaScript number value as it appears in an option bag: either an actual
numeric value or NaN. -/
inductive JsNum
  | num (n : Int)
  | nan
deriving DecidableEq, Repr

/-- JavaScript isNaN on a number value. -/
def jsIsNaN : JsNum → Bool
  | .num _ => false
  | .nan => true

/-- Conditional predicate bag (R2Conditional).  The source accepts a single string
or an array of strings for the etag fields; a single string is embedded as a
one-element list. -/
structure R2Conditional where
  etagMatches : Option (List String) := none
  etagDoesNotMatch : Option (List String) := none
  uploadedBefore : Option Int := none
  uploadedAfter : Option Int := none
deriving DecidableEq, Repr

/-- Range option bag (R2Range). -/
structure R2Range where
  offset : Option JsNum := none
  length : Option JsNum := none
  suffix : Option JsNum := none
deriving DecidableEq, Repr

/-- Options for get (R2GetOptions). -/
structure R2GetOptions where
  onlyIf : Option R2Conditional := none
  range : R2Range := {}
deriving DecidableEq, Repr

/-- Caller-supplied expected digest: a hex string or raw bytes (ArrayBuffer). -/
inductive R2Md5
  | hexStr (s : String)
  | buf (b : List Nat)
deriving DecidableEq, Repr

/-- Payload accepted by put (R2PutValueType).  Streams, blobs and array-buffer
views all normalize to raw bytes in the source, so they are embedded as the
bytes variant; textual payloads keep their string form; null is the empty
payload. -/
inductive R2PutValue
  | str (s : String)
  | bytes (b : List Nat)
  | null
deriving DecidableEq, Repr

/-- Options for put (R2PutOptions). -/
structure R2PutOptions where
  onlyIf : Option R2Conditional := none
  httpMetadata : Option R2HTTPMetadata := none
  customMetadata : Option (List (String × String)) := none
  md5 : Option R2Md5 := none
deriving DecidableEq, Repr

/-- Errors thrown by the gateway: TypeError for key-shape problems, and the
structured R2-method errors produced by throwR2Error. -/
inductive JsError
  | typeError (message : String)
  | r2Error (method : String) (status : Nat) (message : String)
deriving DecidableEq, Repr

def MAX_LIST_KEYS : Nat := 1000

def MAX_KEY_SIZE : Nat := 512

def MAX_VALUE_SIZE : Nat := 5 * 1000 * 1000 * 1000 - 5 * 1000 * 1000

/-! ## Validators (bucket.ts lines 121-248) -/

/-- validateKey: reject empty, ".", ".." and over-long keys before any storage
access (bucket.ts lines 121-135). -/
def validateKey (method : String) (key : String) : Except JsError Unit :=
  if key = "" then .error (.typeError "Key name cannot be empty.")
  else if key = "." then .error (.typeError "\".\" is not allowed as a key name.")
  else if key = ".." then .error (.typeError "\"..\" is not allowed as a key name.")
  else if utf8Len key > MAX_KEY_SIZE then
    .error (.r2Error method 414
      ("UTF-8 encoded length of " ++ toString (utf8Len key) ++
        " exceeds key length limit of " ++ toString MAX_KEY_SIZE ++ "."))
  else .ok ()

/-- validateR2GetOptions (bucket.ts lines 172-191).  The source tests each present
range field with the condition (field !== undefined && !isNaN(field)) and throws
when it holds, so a present numeric field throws and a present NaN field passes;
this definition mirrors that faithfully.  The onlyIf shape checks of
validateOnlyIf test runtime types that the typed embedding cannot misshape, so
they never fail here. -/
def validateR2GetOptions (options : R2GetOptions) : Except JsError Unit :=
  match options.range.offset with
  | some v =>
    if !jsIsNaN v then .error (.r2Error "GET" 400 "offset must be a number.")
    else validateLen options
  | none => validateLen options
where
  validateLen (options : R2GetOptions) : Except JsError Unit :=
    match options.range.length with
    | some v =>
      if !jsIsNaN v then .error (.r2Error "GET" 400 "length must be a number.")
      else validateSfx options
    | none => validateSfx options
  validateSfx (options : R2GetOptions) : Except JsError Unit :=
    match options.range.suffix with
    | some v =>
      if !jsIsNaN v then .error (.r2Error "GET" 400 "suffix must be a number.")
      else .ok ()
    | none => .ok ()

/-- validateR2PutOptions (bucket.ts lines 216-248): every check tests runtime
types (strings, Dates, objects) that the typed embedding cannot misshape, so the
embedded validator always succeeds. -/
def validateR2PutOptions (_options : R2PutOptions) : Except JsError Unit :=
  .ok ()

/-! ## Conditional evaluator and gateway operations -/

/-- Modelled from the spec: testR2Conditional lives in r2Object.ts, which is not
part of the gateway source; section 4.2 of the specification defines it.  The
result is true when the conditional test FAILS (the operation should be
short-circuited).  All supplied clauses must hold: etagMatches is satisfied when
the object's etag equals any supplied value, etagDoesNotMatch when it equals
none of them, uploadedBefore/uploadedAfter compare the upload timestamp
strictly.  An absent clause is trivially satisfied. -/
def testR2Conditional (c : R2Conditional) (m : R2ObjectMetadata) : Bool :=
  let matchesOk :=
    match c.etagMatches with
    | none => true
    | some l => l.contains m.etag
  let noMatchOk :=
    match c.etagDoesNotMatch with
    | none => true
    | some l => !(l.contains m.etag)
  let beforeOk :=
    match c.uploadedBefore with
    | none => true
    | some t => decide (m.uploaded < t)
  let afterOk :=
    match c.uploadedAfter with
    | none => true
    | some t => decide (t < m.uploaded)
  !(matchesOk && noMatchOk && beforeOk && afterOk)

/-- Modelled from the spec: parseOnlyIf (r2Object.ts, not in the gateway source)
normalizes a possibly-absent conditional bag; on an absent bag it yields the
empty conditional, and structured bags are already in normal form in this
embedding. -/
def parseOnlyIf (o : Option R2Conditional) : R2Conditional :=
  o.getD {}

/-- Modelled from the spec: parseHttpMetadata (r2Object.ts, not in the gateway
source) normalizes a possibly-absent HTTP metadata bag; absent becomes empty. -/
def parseHttpMetadata (h : Option R2HTTPMetadata) : R2HTTPMetadata :=
  h.getD {}

/-- Result shape of get: a full body with metadata (R2ObjectBody), metadata only
(R2Object, returned on a failed precondition or a zero-length object), or the
absent result (null). -/
inductive R2GetResult
  | objectBody (metadata : R2ObjectMetadata) (body : List Nat)
  | objectOnly (metadata : R2ObjectMetadata)
  | nullResult
deriving DecidableEq, Repr

/-- head (bucket.ts lines 281-295): validate the key, then a pure metadata
lookup. -/
def r2Head (store : Store) (key : String) : Except JsError (Option R2ObjectMetadata) :=
  match validateKey "HEAD" key with
  | .error e => .error e
  | .ok _ =>
    match storeLookup store key with
    | none => .ok none
    | some e => .ok (some e.metadata)

/-- Modelled from the spec: the storage substrate's suffix read (last n bytes),
section 4.3/6.  The substrate cannot honor a non-numeric or negative suffix and
reports an error, which the gateway turns into a 416-style failure. -/
def storageGetSuffix (store : Store) (key : String) (sfx : JsNum) :
    Except Unit (Option StoredValue) :=
  match sfx with
  | .nan => .error ()
  | .num n =>
    if n < 0 then .error ()
    else
      match storeLookup store key with
      | none => .ok none
      | some e => .ok (some { e with value := e.value.drop (e.value.length - n.toNat) })

/-- Modelled from the spec: the storage substrate's windowed read (offset and
optional length), section 4.3/6.  Non-numeric or out-of-bounds parameters cannot
be honored and report an error. -/
def storageGetRange (store : Store) (key : String) (off : JsNum) (len : Option JsNum) :
    Except Unit (Option StoredValue) :=
  match off, len with
  | .nan, _ => .error ()
  | _, some .nan => .error ()
  | .num o, _ =>
    if o < 0 then .error ()
    else
      match storeLookup store key with
      | none => .ok none
      | some e =>
        if e.value.length < o.toNat then .error ()
        else
          let win := e.value.drop o.toNat
          match len with
          | some (.num l) => .ok (some { e with value := win.take l.toNat })
          | _ => .ok (some { e with value := win })

/-- Body-producing tail of get (bucket.ts lines 331-369): dispatch on the range
bag (a present suffix first, then a present offset/length with the explicit
length-zero rejection, else a full read) and wrap the stored value, returning
null when the read produced no metadata. -/
def r2GetBody (store : Store) (key : String) (rng : R2Range) :
    Except JsError R2GetResult :=
  let stored? : Except JsError (Option StoredValue) :=
    match rng.suffix with
    | some s =>
      match storageGetSuffix store key s with
      | .error _ => .error (.r2Error "GET" 400 "The requested range is not satisfiable.")
      | .ok st => .ok st
    | none =>
      if rng.offset.isSome || rng.length.isSome then
        if rng.length = some (.num 0) then
          .error (.r2Error "GET" 400 "The requested range is not satisfiable.")
        else
          match storageGetRange store key (rng.offset.getD (.num 0)) rng.length with
          | .error _ => .error (.r2Error "GET" 400 "The requested range is not satisfiable.")
          | .ok st => .ok st
      else .ok (storeLookup store key)
  match stored? with
  | .error e => .error e
  | .ok none => .ok .nullResult
  | .ok (some e) => .ok (.objectBody e.metadata e.value)

/-- get (bucket.ts lines 300-370): validate key and options; when metadata exists
and the conditional fails, or the object has size zero, return the metadata
without a body; when no metadata exists return null; otherwise resolve the
requested byte range and return metadata plus body. -/
def r2Get (store : Store) (key : String) (options : R2GetOptions) :
    Except JsError R2GetResult :=
  match validateKey "GET" key with
  | .error e => .error e
  | .ok _ =>
    match validateR2GetOptions options with
    | .error e => .error e
    | .ok _ =>
      let onlyIf := parseOnlyIf options.onlyIf
      match storeLookup store key with
      | none => .ok .nullResult
      | some e =>
        if testR2Conditional onlyIf e.metadata || e.metadata.size == 0 then
          .ok (.objectOnly e.metadata)
        else r2GetBody store key options.range

/-- Canonical byte sequence of a put payload (bucket.ts lines 401-420): strings
are UTF-8 encoded, raw byte shapes pass through, null is empty. -/
def canonicalBytes : R2PutValue → List Nat
  | .str s => utf8Encode s
  | .bytes b => b
  | .null => []

/-- Normalization of a caller-supplied digest to hex (bucket.ts lines 433-437):
an ArrayBuffer is rendered as lower-case hex, a string is used as given. -/
def normalizeMd5 : R2Md5 → String
  | .hexStr s => s
  | .buf b => hexOfBytes b

/-- Committing tail of put (bucket.ts lines 401-468), reached once the
conditional test has not short-circuited: normalize the payload, enforce the
size limit, check the caller-supplied digest against the computed one, assemble
fresh metadata and persist value plus metadata as one unit.  The digest
function, version token and upload timestamp come from the environment
(createMD5, createVersion, new Date) and are passed as parameters. -/
def r2PutCommit (digest : List Nat → String) (version : String) (now : Int)
    (store : Store) (key : String) (value : R2PutValue) (options : R2PutOptions) :
    Except JsError (Store × Option R2ObjectMetadata) :=
  let stored := canonicalBytes value
  if stored.length > MAX_VALUE_SIZE then
    .error (.r2Error "PUT" 400
      ("Value length of " ++ toString stored.length ++ " exceeds limit of " ++
        toString MAX_VALUE_SIZE ++ "."))
  else
    let md5Hash := digest stored
    let md5Ok : Except JsError Unit :=
      match options.md5 with
      | none => .ok ()
      | some m =>
        if normalizeMd5 m ≠ md5Hash then
          .error (.r2Error "PUT" 400 "The Content-MD5 you specified did not match what we received.")
        else .ok ()
    match md5Ok with
    | .error e => .error e
    | .ok _ =>
      let metadata : R2ObjectMetadata :=
        { key := key
          size := stored.length
          etag := md5Hash
          version := version
          httpEtag := "\"" ++ md5Hash ++ "\""
          uploaded := now
          httpMetadata := parseHttpMetadata options.httpMetadata
          customMetadata := options.customMetadata.getD [] }
      .ok (storeInsert store key { value := stored, metadata := metadata }, some metadata)

/-- put (bucket.ts lines 372-469): validate key and options; evaluate the
conditional bag against current metadata ONLY when metadata exists (the source
guards the test with meta?.metadata &&), returning null with no write when it
fails; otherwise normalize, check and commit.  A returned error means no write
took place: the store is only produced on the ok path. -/
def r2Put (digest : List Nat → String) (version : String) (now : Int)
    (store : Store) (key : String) (value : R2PutValue) (options : R2PutOptions) :
    Except JsError (Store × Option R2ObjectMetadata) :=
  match validateKey "PUT" key with
  | .error e => .error e
  | .ok _ =>
    match validateR2PutOptions options with
    | .error e => .error e
    | .ok _ =>
      let onlyIf := parseOnlyIf options.onlyIf
      match storeLookup store key with
      | some e =>
        if testR2Conditional onlyIf e.metadata then .ok (store, none)
        else r2PutCommit digest version now store key value options
      | none => r2PutCommit digest version now store key value options

/-- delete (bucket.ts lines 471-479): validate the key, then unconditionally
remove value and metadata; deleting an absent key is not an error. -/
def r2Delete (store : Store) (key : String) : Except JsError Store :=
  match validateKey "DELETE" key with
  | .error e => .error e
  | .ok _ => .ok (storeErase store key)

/-! ## Shared lemmas -/

/-- A key that passes every shape check of validateKey. -/
def validKeyB (key : String) : Bool :=
  !(key == "" || key == "." || key == ".." || decide (utf8Len key > MAX_KEY_SIZE))

theorem validateKey_ok (method key : String) (h : validKeyB key = true) :
    validateKey method key = .ok () := by
  unfold validKeyB at h
  simp only [Bool.not_eq_true', Bool.or_eq_false_iff, beq_eq_false_iff_ne, ne_eq,
    decide_eq_false_iff_not, not_lt] at h
  obtain ⟨⟨⟨h1, h2⟩, h3⟩, h4⟩ := h
  unfold validateKey
  rw [if_neg h1, if_neg h2, if_neg h3, if_neg (by omega)]

theorem testR2Conditional_empty (m : R2ObjectMetadata) :
    testR2Conditional {} m = false := rfl

theorem storeLookup_insert (store : Store) (key : String) (e : StoredValue) :
    storeLookup (storeInsert store key e) key = some e := by
  induction store with
  | nil => simp [storeInsert, storeLookup]
  | cons head rest ih =>
    obtain ⟨k, f⟩ := head
    unfold storeInsert
    by_cases hk : key = k
    · rw [if_pos hk]
      simp [storeLookup]
    · rw [if_neg hk]
      by_cases hlt : strLt key k
      · rw [if_pos hlt]
        simp [storeLookup]
      · rw [if_neg hlt]
        simp [storeLookup, hk, ih]

/-- Test fixture: object metadata with the given key, size, etag, version and
upload time, empty HTTP and custom metadata, and the quoted etag — exactly the
shape put constructs. -/
def mdFix (key : String) (size : Nat) (etag version : String) (uploaded : Int) :
    R2ObjectMetadata :=
  { key := key, size := size, etag := etag, version := version,
    httpEtag := "\"" ++ etag ++ "\"", uploaded := uploaded,
    httpMetadata := {}, customMetadata := [] }

/-! ## Claim C1 -/

/-- Claim C1 (amended): for every valid key and every payload whose canonical
bytes are nonempty and within the size limit, put followed by get returns a body
identical to the canonical bytes, and metadata whose size is the byte length and
whose etag is the digest of those bytes.  (The unamended claim fails for empty
payloads: the gateway short-circuits size-zero objects to a metadata-only
result, see the counterexample.) -/
theorem c1_roundtrip_nonempty (digest : List Nat → String) (version : String)
    (now : Int) (store : Store) (key : String) (v : R2PutValue)
    (hkey : validKeyB key = true)
    (hsize : (canonicalBytes v).length ≤ MAX_VALUE_SIZE)
    (hne : (canonicalBytes v).length ≠ 0) :
    ∃ store' md,
      r2Put digest version now store key v {} = .ok (store', some md) ∧
      r2Get store' key {} = .ok (.objectBody md (canonicalBytes v)) ∧
      md.size = (canonicalBytes v).length ∧
      md.etag = digest (canonicalBytes v) := by
  set md : R2ObjectMetadata :=
    { key := key
      size := (canonicalBytes v).length
      etag := digest (canonicalBytes v)
      version := version
      httpEtag := "\"" ++ digest (canonicalBytes v) ++ "\""
      uploaded := now
      httpMetadata := {}
      customMetadata := [] } with hmd
  set store' : Store := storeInsert store key { value := canonicalBytes v, metadata := md }
    with hstore'
  have hcommit : r2PutCommit digest version now store key v {} = .ok (store', some md) := by
    unfold r2PutCommit
    rw [if_neg (by omega)]
    rfl
  have hput : r2Put digest version now store key v {} = .ok (store', some md) := by
    unfold r2Put
    rw [validateKey_ok "PUT" key hkey]
    cases hl : storeLookup store key with
    | none => simpa using hcommit
    | some e => simpa [parseOnlyIf, testR2Conditional_empty] using hcommit
  have hlook : storeLookup store' key = some { value := canonicalBytes v, metadata := md } := by
    rw [hstore']
    exact storeLookup_insert store key _
  refine ⟨store', md, hput, ?_, rfl, rfl⟩
  unfold r2Get
  rw [validateKey_ok "GET" key hkey]
  simp [hlook, validateR2GetOptions, validateR2GetOptions.validateLen,
    validateR2GetOptions.validateSfx, parseOnlyIf, testR2Conditional_empty,
    r2GetBody, hmd, hne]

/-- Claim C1 witness: a concrete valid key and nonempty payload for which the
round-trip theorem applies and its hypotheses hold. -/
theorem c1_roundtrip_nonempty_witness :
    validKeyB "k" = true ∧
    (canonicalBytes (.bytes [7])).length ≤ MAX_VALUE_SIZE ∧
    (canonicalBytes (.bytes [7])).length ≠ 0 ∧
    (∃ store' md,
      r2Put (fun _ => "aa") "v1" 0 [] "k" (.bytes [7]) {} = .ok (store', some md) ∧
      r2Get store' "k" {} = .ok (.objectBody md (canonicalBytes (.bytes [7]))) ∧
      md.size = (canonicalBytes (.bytes [7])).length ∧
      md.etag = (fun _ => "aa") (canonicalBytes (.bytes [7]))) :=
  ⟨by decide, by decide, by decide,
    c1_roundtrip_nonempty (fun _ => "aa") "v1" 0 [] "k" (.bytes [7])
      (by decide) (by decide) (by decide)⟩

/-- Claim C1 counterexample: for the empty payload (null normalizes to zero
bytes), put succeeds but the subsequent get returns the metadata WITHOUT a body
(the gateway's size-zero short-circuit), so the unamended universally-quantified
round-trip claim is false at this input. -/
theorem c1_empty_payload_counterexample :
    r2Put (fun _ => "d0") "v1" 0 [] "k" .null {} =
      .ok ([("k", ⟨[], mdFix "k" 0 "d0" "v1" 0⟩)], some (mdFix "k" 0 "d0" "v1" 0)) ∧
    r2Get [("k", ⟨[], mdFix "k" 0 "d0" "v1" 0⟩)] "k" {} =
      .ok (.objectOnly (mdFix "k" 0 "d0" "v1" 0)) :=
  ⟨rfl, rfl⟩

/-! ## Claim C3 -/

/-- Claim C3 is false on the code: a put carrying onlyIf.etagMatches against a
key with NO stored object does not short-circuit.  The source guards the
conditional test with (meta?.metadata && testR2Conditional(...)), so with absent
metadata the test is skipped entirely, the write is performed and the fresh
metadata is returned — the claim (and spec section 4.2) say the etagMatches
clause fails on a missing object, so the put should return absent with no
write.  This evaluates put on an empty store with an etagMatches option. -/
theorem c3_put_etag_match_missing_object_writes :
    r2Put (fun _ => "d0") "v1" 7 [] "k" (.bytes [9])
        { onlyIf := some { etagMatches := some ["x"] } } =
      .ok ([("k", ⟨[9], mdFix "k" 1 "d0" "v1" 7⟩)], some (mdFix "k" 1 "d0" "v1" 7)) :=
  rfl

/-! ## Claim C5 -/

/-- Claim C5 (amended): for every stored object of NONZERO size with etag E, a
get conditioned on etagMatches = E returns the metadata together with the full
body, while a get conditioned on an etag different from E returns the metadata
only, with no body.  (The unamended claim fails for zero-length stored objects:
even a matching conditional yields a metadata-only result, see the
counterexample.) -/
theorem c5_conditional_get (store : Store) (key : String) (e : StoredValue)
    (hkey : validKeyB key = true)
    (hl : storeLookup store key = some e)
    (hsz : e.metadata.size ≠ 0) :
    r2Get store key { onlyIf := some { etagMatches := some [e.metadata.etag] } } =
      .ok (.objectBody e.metadata e.value) ∧
    ∀ other : String, other ≠ e.metadata.etag →
      r2Get store key { onlyIf := some { etagMatches := some [other] } } =
        .ok (.objectOnly e.metadata) := by
  have hsz0 : (e.metadata.size == 0) = false := by simpa using hsz
  constructor
  · have hmatch :
        testR2Conditional { etagMatches := some [e.metadata.etag] } e.metadata = false := by
      simp [testR2Conditional, List.contains]
    unfold r2Get
    rw [validateKey_ok "GET" key hkey]
    simp [hl, parseOnlyIf, hmatch, hsz0, r2GetBody, validateR2GetOptions,
      validateR2GetOptions.validateLen, validateR2GetOptions.validateSfx]
  · intro other hother
    have hmatch :
        testR2Conditional { etagMatches := some [other] } e.metadata = true := by
      simp [testR2Conditional, List.contains]
      exact fun hcontra => absurd hcontra.symm hother
    unfold r2Get
    rw [validateKey_ok "GET" key hkey]
    simp [hl, parseOnlyIf, hmatch, validateR2GetOptions,
      validateR2GetOptions.validateLen, validateR2GetOptions.validateSfx]

/-- Claim C5 witness: a concrete one-object store on which the conditional-get
theorem applies, with the mismatching etag instantiated to "zz". -/
theorem c5_conditional_get_witness :
    r2Get [("k", ⟨[1], mdFix "k" 1 "E" "v" 0⟩)] "k"
        { onlyIf := some { etagMatches := some ["E"] } } =
      .ok (.objectBody (mdFix "k" 1 "E" "v" 0) [1]) ∧
    r2Get [("k", ⟨[1], mdFix "k" 1 "E" "v" 0⟩)] "k"
        { onlyIf := some { etagMatches := some ["zz"] } } =
      .ok (.objectOnly (mdFix "k" 1 "E" "v" 0)) := by
  have h := c5_conditional_get [("k", ⟨[1], mdFix "k" 1 "E" "v" 0⟩)] "k"
    ⟨[1], mdFix "k" 1 "E" "v" 0⟩ (by decide) (by decide) (by decide)
  exact ⟨h.1, h.2 "zz" (by decide)⟩

/-- Claim C5 counterexample: for a stored ZERO-length object with etag "E", the
get conditioned on the matching etagMatches = "E" returns metadata only (no
body), so the unamended claim is false at this input. -/
theorem c5_zero_size_counterexample :
    r2Get [("k", ⟨[], mdFix "k" 0 "E" "v" 0⟩)] "k"
        { onlyIf := some { etagMatches := some ["E"] } } =
      .ok (.objectOnly (mdFix "k" 0 "E" "v" 0)) :=
  rfl

/-! ## Claim C7 -/

/-- Claim C7: a put that supplies an expected digest (hex string or raw bytes,
normalized to hex) different from the digest computed over the final canonical
bytes fails with the integrity error, and no write is performed — the store is
only produced on the ok path, so an error result leaves any prior object for the
key unchanged.  Stated for puts whose conditional bag is absent (a failing
conditional would short-circuit before the digest check) and whose payload is
within the size limit (the size check precedes the digest check). -/
theorem c7_md5_mismatch_rejected (digest : List Nat → String) (version : String)
    (now : Int) (store : Store) (key : String) (v : R2PutValue) (m : R2Md5)
    (hkey : validKeyB key = true)
    (hsize : (canonicalBytes v).length ≤ MAX_VALUE_SIZE)
    (hmd5 : normalizeMd5 m ≠ digest (canonicalBytes v)) :
    r2Put digest version now store key v { md5 := some m } =
      .error (.r2Error "PUT" 400
        "The Content-MD5 you specified did not match what we received.") := by
  have hcommit : r2PutCommit digest version now store key v { md5 := some m } =
      .error (.r2Error "PUT" 400
        "The Content-MD5 you specified did not match what we received.") := by
    unfold r2PutCommit
    rw [if_neg (by omega)]
    simp only []
    rw [if_pos hmd5]
  unfold r2Put
  rw [validateKey_ok "PUT" key hkey]
  cases hl : storeLookup store key with
  | none => simpa using hcommit
  | some e => simpa [parseOnlyIf, testR2Conditional_empty] using hcommit

/-- Claim C7 witness: a concrete put whose supplied digest "bb" differs from the
computed digest "aa"; the theorem applies and its hypotheses hold. -/
theorem c7_md5_mismatch_rejected_witness :
    validKeyB "k" = true ∧
    (canonicalBytes .null).length ≤ MAX_VALUE_SIZE ∧
    normalizeMd5 (.hexStr "bb") ≠ (fun _ => "aa") (canonicalBytes .null) ∧
    r2Put (fun _ => "aa") "v1" 0 [] "k" .null { md5 := some (.hexStr "bb") } =
      .error (.r2Error "PUT" 400
        "The Content-MD5 you specified did not match what we received.") :=
  ⟨by decide, by decide, by decide,
    c7_md5_mismatch_rejected (fun _ => "aa") "v1" 0 [] "k" .null (.hexStr "bb")
      (by decide) (by decide) (by decide)⟩

/-! ## Claim C8 -/

/-- A key rejected by the gateway's key validation: empty, ".", "..", or UTF-8
byte length above the limit. -/
abbrev invalidKeyP (key : String) : Prop :=
  key = "" ∨ key = "." ∨ key = ".." ∨ utf8Len key > MAX_KEY_SIZE

theorem validateKey_error (method key : String) (h : invalidKeyP key) :
    ∃ e, validateKey method key = .error e := by
  unfold validateKey
  rcases h with h | h | h | h
  · exact ⟨_, by rw [if_pos h]⟩
  · by_cases h1 : key = ""
    · exact ⟨_, by rw [if_pos h1]⟩
    · exact ⟨_, by rw [if_neg h1, if_pos h]⟩
  · by_cases h1 : key = ""
    · exact ⟨_, by rw [if_pos h1]⟩
    · by_cases h2 : key = "."
      · exact ⟨_, by rw [if_neg h1, if_pos h2]⟩
      · exact ⟨_, by rw [if_neg h1, if_neg h2, if_pos h]⟩
  · by_cases h1 : key = ""
    · subst h1; exact absurd h (by decide)
    · by_cases h2 : key = "."
      · subst h2; exact absurd h (by decide)
      · by_cases h3 : key = ".."
        · subst h3; exact absurd h (by decide)
        · exact ⟨_, by rw [if_neg h1, if_neg h2, if_neg h3, if_pos h]⟩

/-- Claim C8: every gateway operation taking a key (head, get, put, delete)
fails with the key-validation error when the key is empty, ".", "..", or longer
than 512 UTF-8 bytes, for every store and option bag; validation runs before any
storage access, and put/delete produce a store only on the ok path, so no write
occurs. -/
theorem c8_invalid_key_rejected (key : String) (h : invalidKeyP key) :
    (∀ store : Store, ∃ e, r2Head store key = .error e) ∧
    (∀ (store : Store) (options : R2GetOptions), ∃ e, r2Get store key options = .error e) ∧
    (∀ (digest : List Nat → String) (version : String) (now : Int) (store : Store)
      (v : R2PutValue) (options : R2PutOptions),
      ∃ e, r2Put digest version now store key v options = .error e) ∧
    (∀ store : Store, ∃ e, r2Delete store key = .error e) := by
  refine ⟨fun store => ?_, fun store options => ?_, fun digest version now store v options => ?_,
    fun store => ?_⟩
  · obtain ⟨e, he⟩ := validateKey_error "HEAD" key h
    exact ⟨e, by unfold r2Head; rw [he]⟩
  · obtain ⟨e, he⟩ := validateKey_error "GET" key h
    exact ⟨e, by unfold r2Get; rw [he]⟩
  · obtain ⟨e, he⟩ := validateKey_error "PUT" key h
    exact ⟨e, by unfold r2Put; rw [he]⟩
  · obtain ⟨e, he⟩ := validateKey_error "DELETE" key h
    exact ⟨e, by unfold r2Delete; rw [he]⟩

/-- Claim C8 witness: the invalid key ".." is rejected by all four operations on
a concrete empty store. -/
theorem c8_invalid_key_rejected_witness :
    invalidKeyP ".." ∧
    (∃ e, r2Head [] ".." = .error e) ∧
    (∃ e, r2Get [] ".." {} = .error e) ∧
    (∃ e, r2Put (fun _ => "aa") "v1" 0 [] ".." .null {} = .error e) ∧
    (∃ e, r2Delete [] ".." = .error e) := by
  have h := c8_invalid_key_rejected ".." (by decide)
  exact ⟨by decide, h.1 [], h.2.1 [] {}, h.2.2.1 (fun _ => "aa") "v1" 0 [] .null {}, h.2.2.2 []⟩

/-! ## Claim C4 -/

/-- Claim C4 is false on the code: range option validation is inverted.  A get
whose range carries numeric offset/length fields is rejected with the 400 error
"offset must be a number.", and a get whose range carries a non-numeric (NaN)
offset passes this validation.  This evaluates validateR2GetOptions at both
inputs, exhibiting the divergence from the claim. -/
theorem c4_range_validation_inverted :
    validateR2GetOptions { range := { offset := some (.num 2), length := some (.num 3) } } =
      .error (.r2Error "GET" 400 "offset must be a number.") ∧
    validateR2GetOptions { range := { offset := some .nan } } = .ok () := by
  constructor
  · rfl
  · rfl

/-! ## Listing and pagination (bucket.ts lines 481-572) -/

/-- Result of the storage substrate's cursor-based list primitive. -/
structure StorageListResult where
  keys : List (String × R2ObjectMetadata)
  cursor : Option String
deriving DecidableEq, Repr

/-- Insertion step for sorting key/metadata pairs in ascending lexicographic
key order. -/
def sortedInsertKey (e : String × R2ObjectMetadata) :
    List (String × R2ObjectMetadata) → List (String × R2ObjectMetadata)
  | [] => [e]
  | f :: rest => if strLt e.1 f.1 then e :: f :: rest else f :: sortedInsertKey e rest

/-- Insertion sort of key/metadata pairs by key. -/
def sortKeys (l : List (String × R2ObjectMetadata)) : List (String × R2ObjectMetadata) :=
  l.foldr sortedInsertKey []

/-- Modelled from the spec: the storage substrate's cursor-based list primitive
(sections 4.4 and 6; the LocalStorage implementation from the shared storage
package is not part of the gateway source).  Keys matching the prefix are
enumerated in ascending lexicographic order starting strictly after the
cursor-encoded last-seen key; up to limit of them are returned, and the
continuation cursor — the last returned key — is present exactly when more
matching keys remain. -/
def storageList (store : Store) (pfx : String) (limit : Nat) (cursor : Option String) :
    StorageListResult :=
  let matching := (store.map fun e => (e.1, e.2.metadata)).filter fun e => strStartsWith e.1 pfx
  let sorted := sortKeys matching
  let after :=
    match cursor with
    | none => sorted
    | some c => sorted.filter fun e => strLt c e.1
  let page := after.take limit
  let nextCursor :=
    if limit < after.length then page.getLast?.map (fun e => e.1) else none
  { keys := page, cursor := nextCursor }

/-- Deduplicating insertion into the delimited-prefix set (a JS Set preserves
insertion order). -/
def setAdd (l : List String) (s : String) : List String :=
  if l.contains s then l else l ++ [s]

/-- The delimiter filter of the private list helper (bucket.ts lines 503-513):
when a delimiter is set and the remainder of the key after the prefix contains
it, the key is dropped and its delimited prefix is added to the set once; when
the remainder does NOT contain the delimiter the source callback falls through
and returns undefined — a falsy value — so the key is dropped as well.  With no
delimiter every key is kept. -/
def delimFilter (pfx : String) (delimiter : Option String) :
    List R2ObjectMetadata → List String → List R2ObjectMetadata × List String
  | [], dps => ([], dps)
  | m :: rest, dps =>
    match delimiter with
    | none =>
      let r := delimFilter pfx delimiter rest dps
      (m :: r.1, r.2)
    | some d =>
      let objectKey := charDrop m.key (strLen pfx)
      if jsIncludes objectKey d then
        delimFilter pfx (some d) rest (setAdd dps (pfx ++ jsSplitFirst objectKey d ++ d))
      else
        delimFilter pfx (some d) rest dps

/-- The include filter of the private list helper (bucket.ts lines 515-520):
metadata groups that were not requested are emptied. -/
def applyInclude (inc : List String) (m : R2ObjectMetadata) : R2ObjectMetadata :=
  let m1 := if inc.contains "httpMetadata" then m else { m with httpMetadata := {} }
  if inc.contains "customMetadata" then m1 else { m1 with customMetadata := [] }

/-- The private list helper (bucket.ts lines 482-523): one substrate fetch,
followed by the delimiter filter (which accumulates delimited prefixes) and the
include filter.  Every stored key carries metadata in this embedding, so the
undefined-metadata filter keeps everything. -/
def r2ListOnce (store : Store) (pfx : String) (limit : Nat) (inc : List String)
    (dps : List String) (delimiter : Option String) (cursor : Option String) :
    List R2ObjectMetadata × List String × Option String :=
  let res := storageList store pfx limit cursor
  let fd := delimFilter pfx delimiter (res.keys.map fun e => e.2) dps
  (fd.1.map (applyInclude inc), fd.2, res.cursor)

/-- Result shape of list (R2Objects). -/
structure R2Objects where
  objects : List R2ObjectMetadata
  truncated : Bool
  cursor : Option String
  delimitedPrefixes : List String
deriving DecidableEq, Repr

/-- Options for list (R2ListOptions).  The source field names prefix and include
are renamed to pfx and inc. -/
structure R2ListOptions where
  limit : Nat := 1000
  pfx : String := ""
  cursor : Option String := none
  delimiter : Option String := none
  inc : List String := []
deriving DecidableEq, Repr

/-- The list loop of bucket.ts lines 548-560: while the combined count of
objects and delimited prefixes is below the limit, fetch another batch (with the
limit reduced by the objects collected so far), update the cursor, stop on an
empty batch, otherwise append.  The fuel argument only bounds the recursion: a
non-breaking iteration appends at least one object and the loop condition keeps
the object count below the limit, so limit + 1 units of fuel are never
exhausted. -/
def r2ListLoop (store : Store) (pfx : String) (inc : List String)
    (delimiter : Option String) (limit : Nat) :
    Nat → Option String → List R2ObjectMetadata → List String →
    List R2ObjectMetadata × List String × Option String
  | 0, cursor, objects, dps => (objects, dps, cursor)
  | fuel + 1, cursor, objects, dps =>
    if objects.length + dps.length < limit then
      let r := r2ListOnce store pfx (limit - objects.length) inc dps delimiter cursor
      if r.1.length = 0 then (objects, r.2.1, r.2.2)
      else r2ListLoop store pfx inc delimiter limit fuel r.2.2 (objects ++ r.1) r.2.1
    else (objects, dps, cursor)

/-- list (bucket.ts lines 525-572): validate the limit, reduce it to at most 100
when extended metadata is requested, run the fetch loop, and report truncation
exactly when a continuation cursor remains. -/
def r2List (store : Store) (options : R2ListOptions) : Except JsError R2Objects :=
  if options.limit < 1 || options.limit > MAX_LIST_KEYS then
    .error (.r2Error "LIST" 400 "MaxKeys params must be positive integer <= 1000.")
  else
    let limit := if options.inc.length > 0 then min options.limit 100 else options.limit
    let r := r2ListLoop store options.pfx options.inc options.delimiter limit
      (limit + 1) options.cursor [] []
    .ok { objects := r.1, truncated := r.2.2.isSome, cursor := r.2.2,
          delimitedPrefixes := r.2.1 }

/-! ## Claim C2 -/

/-- Claim C2 is false on the code: for a store containing exactly the keys
"a/b", "a/c" and "d", list with delimiter "/" returns delimitedPrefixes
containing exactly "a/" (deduplicated, as the claim states), but objects is
EMPTY rather than containing "d".  The delimiter filter callback only returns a
value for keys whose remainder contains the delimiter; for "d" it falls through
returning undefined, which is falsy, so "d" is dropped from the result.  This
evaluates list on that store. -/
theorem c2_delimiter_drops_plain_keys :
    r2List
      [("a/b", ⟨[1], mdFix "a/b" 1 "e1" "v" 0⟩),
        ("a/c", ⟨[1], mdFix "a/c" 1 "e2" "v" 0⟩),
        ("d", ⟨[1], mdFix "d" 1 "e3" "v" 0⟩)]
      { delimiter := some "/" } =
      .ok { objects := [], truncated := false, cursor := none,
            delimitedPrefixes := ["a/"] } := by
  rfl

/-! ## Claim C6 -/

/-- Claim C6: the first page behaves as claimed, but resuming is broken.  Over
the store with keys "a", "b", "c" and limit 2, the first list call returns
exactly the two objects "a", "b" with truncated = true and cursor "b" — exactly
as the claim states.  Resuming with cursor "b" must, per the claim, yield the
single remaining key "c" with truncated = false and no cursor; instead the code
returns the objects "c" and then "a" AGAIN (after the backing cursor is
exhausted mid-fill, the loop restarts enumeration from the beginning), with
truncated = true and cursor "a".  This evaluates both calls. -/
theorem c6_pagination_resume_duplicates :
    r2List
      [("a", ⟨[1], mdFix "a" 1 "ea" "v" 0⟩),
        ("b", ⟨[1], mdFix "b" 1 "eb" "v" 0⟩),
        ("c", ⟨[1], mdFix "c" 1 "ec" "v" 0⟩)]
      { limit := 2 } =
      .ok { objects := [mdFix "a" 1 "ea" "v" 0, mdFix "b" 1 "eb" "v" 0],
            truncated := true, cursor := some "b", delimitedPrefixes := [] } ∧
    r2List
      [("a", ⟨[1], mdFix "a" 1 "ea" "v" 0⟩),
        ("b", ⟨[1], mdFix "b" 1 "eb" "v" 0⟩),
        ("c", ⟨[1], mdFix "c" 1 "ec" "v" 0⟩)]
      { limit := 2, cursor := some "b" } =
      .ok { objects := [mdFix "c" 1 "ec" "v" 0, mdFix "a" 1 "ea" "v" 0],
            truncated := true, cursor := some "a", delimitedPrefixes := [] } := by
  constructor
  · rfl
  · rfl

/-! ## Filesystem backing engine (FileStorage) -/

/-- Split a character list on a delimiter character (String.prototype.split for
a one-character separator). -/
def splitChar (d : Char) : List Char → List (List Char)
  | [] => [[]]
  | c :: rest =>
    match splitChar d rest with
    | [] => [[c]]
    | hd :: tl => if c = d then [] :: hd :: tl else (c :: hd) :: tl

/-- Join path segments with "/". -/
def joinSlash : List String → String
  | [] => ""
  | [s] => s
  | s :: rest => s ++ "/" ++ joinSlash rest

/-- One normalization step over a (reversed) segment stack: empty and "."
segments vanish, ".." pops the previous segment (and stays at the root of an
absolute path when there is none), anything else is pushed. -/
def normStep (stack : List String) (seg : String) : List String :=
  if seg = "" || seg = "." then stack
  else if seg = ".." then stack.tail
  else seg :: stack

/-- Node's path.join for an absolute POSIX base: concatenate with a separator
and normalize, resolving "." and ".." segments. -/
def pathJoin (a b : String) : String :=
  let segs := (splitChar '/' (a ++ "/" ++ b).data).map fun cs => (⟨cs⟩ : String)
  "/" ++ joinSlash (segs.foldl normStep []).reverse

/-- Modelled from the spec: sanitisePath from the shared package is not part of
the source; section 4.5 requires the key to be sanitised into a filesystem-safe
relative path that must not escape the storage root, so empty, "." and ".."
segments are removed.  Keys made of ordinary characters are unchanged. -/
def sanitisePath (key : String) : String :=
  joinSlash (((splitChar '/' key.data).map fun cs => (⟨cs⟩ : String)).filter
    fun s => !(s == "" || s == "." || s == ".."))

/-- keyPath (FileStorage lines 42-49): sanitise the key when enabled, join it
onto the resolved root, and keep the file path only when it has the root as a
string prefix; the flag records whether sanitisation changed the key.  The root
is taken already resolved (the constructor applies path.resolve). -/
def keyPath (root : String) (sanitise : Bool) (key : String) : Option String × Bool :=
  let sanitisedKey := if sanitise then sanitisePath key else key
  let filePath := pathJoin root sanitisedKey
  (if strStartsWith filePath root then some filePath else none, sanitisedKey != key)

def metaSuffix : String := ".meta.json"

/-- A file in the modelled filesystem: either plain value bytes (stored here as
text) or a sidecar record.  A sidecar is written as JSON.stringify of the
record; parse after print is the identity on these records, so the sidecar is
kept structurally — no claim reads a sidecar's raw text. -/
inductive FsFile
  | dataFile (contents : String)
  | metaFile (key : Option String) (expiration : Option Int) (metadata : Option String)
deriving DecidableEq, Repr

/-- Raw byte content of a file as seen by a plain read.  Sidecar files are only
ever read structurally by the claims, so their JSON text is left opaque. -/
def fileText : FsFile → String
  | .dataFile s => s
  | .metaFile _ _ _ => ""

/-- The filesystem: a flat map from absolute file paths to files. -/
abbrev FS := List (String × FsFile)

def fsLookup : FS → String → Option FsFile
  | [], _ => none
  | (q, f) :: rest, p => if p = q then some f else fsLookup rest p

def fsErase : FS → String → FS
  | [], _ => []
  | (q, f) :: rest, p => if p = q then rest else (q, f) :: fsErase rest p

/-- Does some existing regular file sit strictly above the path (a proper
ancestor of p is a file)?  That is the situation in which the filesystem reports
ENOTDIR on reads/unlinks and the recursive-mkdir of a write fails. -/
def ancestorIsFile : FS → String → Bool
  | [], _ => false
  | (q, _) :: rest, p => strStartsWith p (q ++ "/") || ancestorIsFile rest p

/-- Filesystem error codes relevant to FileStorage. -/
inductive ECode
  | enotdir
  | eexist
deriving DecidableEq, Repr

/-- FileStorage errors: the two structured codes plus a propagated raw
filesystem error (the source rethrows anything it does not recognise). -/
inductive FsErr
  | traversal
  | namespaceKeyChild
  | raw (c : ECode)
deriving DecidableEq, Repr

/-- The helpers' writeFile: create parent directories and write the file,
replacing prior content; it fails with EEXIST when a parent path segment is
itself a regular file (the namespace-collision situation the source documents
for its catch of EEXIST). -/
def writeFileM (fs : FS) (p : String) (f : FsFile) : Except ECode FS :=
  if ancestorIsFile fs p then .error .eexist
  else .ok ((p, f) :: fsErase fs p)

/-- The helpers' readFile: the file's content, none when it does not exist, and
ENOTDIR when a parent path segment is a regular file. -/
def readFileM (fs : FS) (p : String) : Except ECode (Option FsFile) :=
  match fsLookup fs p with
  | some f => .ok (some f)
  | none => if ancestorIsFile fs p then .error .enotdir else .ok none

/-- The helpers' deleteFile: remove the file, reporting whether it existed, and
ENOTDIR when a parent path segment is a regular file. -/
def deleteFileM (fs : FS) (p : String) : Except ECode (FS × Bool) :=
  if ancestorIsFile fs p then .error .enotdir
  else .ok (fsErase fs p, (fsLookup fs p).isSome)

/-- A stored value with its sidecar fields at the FileStorage layer
(StoredValueMeta; the generic metadata payload is kept as an opaque string). -/
structure FsStoredValueMeta where
  value : String
  expiration : Option Int := none
  metadata : Option String := none
deriving DecidableEq, Repr

/-- Parse of a sidecar read (FileStorage.meta): a sidecar record yields its
fields and a missing sidecar yields the empty record.  A plain data file at a
sidecar path — unreachable through this API — is not modelled. -/
def fsMetaOf : Option FsFile → Option String × Option Int × Option String
  | some (.metaFile k e m) => (k, e, m)
  | _ => (none, none, none)

/-- FileStorage.put (lines 89-130): resolve the key path, rejecting with the
distinct traversal error when it falls outside the root; write the value file,
turning EEXIST into the namespace-collision error; then write the sidecar when
there is an expiration, metadata or a sanitised key, and otherwise delete any
stale sidecar.  Errors of the sidecar step are not caught and propagate raw. -/
def fsPut (root : String) (sanitise : Bool) (key : String) (v : FsStoredValueMeta)
    (fs : FS) : Except FsErr FS :=
  match keyPath root sanitise key with
  | (none, _) => .error .traversal
  | (some filePath, sanitised) =>
    match writeFileM fs filePath (.dataFile v.value) with
    | .error .eexist => .error .namespaceKeyChild
    | .error c => .error (.raw c)
    | .ok fs1 =>
      if v.expiration.isSome || v.metadata.isSome || sanitised then
        match writeFileM fs1 (filePath ++ metaSuffix) (.metaFile (some key) v.expiration v.metadata) with
        | .error c => .error (.raw c)
        | .ok fs2 => .ok fs2
      else
        match deleteFileM fs1 (filePath ++ metaSuffix) with
        | .error c => .error (.raw c)
        | .ok r => .ok r.1

/-- FileStorage.getMaybeExpired (lines 65-87): resolve the key path (not-found
when it falls outside the root), read the value file, read the sidecar, and
assemble the stored record; an ENOTDIR from either read (the parent-is-a-key
situation) is caught and reported as not-found. -/
def fsGetMaybeExpired (root : String) (sanitise : Bool) (key : String) (fs : FS) :
    Option FsStoredValueMeta :=
  match keyPath root sanitise key with
  | (none, _) => none
  | (some filePath, _) =>
    match readFileM fs filePath with
    | .error _ => none
    | .ok none => none
    | .ok (some f) =>
      match readFileM fs (filePath ++ metaSuffix) with
      | .error _ => none
      | .ok mf =>
        let r := fsMetaOf mf
        some { value := fileText f, expiration := r.2.1, metadata := r.2.2 }

/-- A JavaScript number as produced by the Number() builtin: an integral value
or NaN in the fragment the claims exercise. -/
inductive JsNumVal
  | nan
  | int (n : Int)
deriving DecidableEq, Repr

def isJsSpace (c : Char) : Bool :=
  c == ' ' || c == '\t' || c == '\n' || c == '\r'

/-- Modelled from the JS Number() builtin restricted to optionally-signed
decimal integer strings: surrounding whitespace is trimmed, the empty string is
zero, a sign followed by digits parses as that integer, anything else is NaN
(fractional, exponent and radix-prefixed forms do not occur in the claims). -/
def jsNumber (s : String) : JsNumVal :=
  let t := ((s.data.dropWhile isJsSpace).reverse.dropWhile isJsSpace).reverse
  if t.isEmpty then .int 0
  else
    let core :=
      match t with
      | '-' :: rest => rest
      | '+' :: rest => rest
      | _ => t
    let neg :=
      match t with
      | '-' :: _ => true
      | _ => false
    if !core.isEmpty && core.all Char.isDigit then
      let n := core.foldl (fun acc c => acc * 10 + (c.toNat - 48)) 0
      .int (if neg then -(n : Int) else (n : Int))
    else .nan

def digitChar (n : Nat) : Char :=
  Char.ofNat (48 + n % 10)

def natDigitsAux : Nat → Nat → List Char
  | 0, _ => []
  | fuel + 1, n => if n < 10 then [digitChar n] else natDigitsAux fuel (n / 10) ++ [digitChar (n % 10)]

def natDecimal (n : Nat) : String :=
  ⟨natDigitsAux (n + 1) n⟩

/-- Modelled from the JS String() builtin on an integral number: its decimal
rendering (exact for the integral scheduled times the claims use). -/
def intDecimal : Int → String
  | .ofNat n => natDecimal n
  | .negSucc m => "-" ++ natDecimal (m + 1)

/-- FileStorage.getAlarm (lines 171-186): resolve the path of the reserved key
"__MINIFLARE_ALARM__" through the ordinary key-to-path mapping, read the value
file, and return Number() of its UTF-8 decoding; missing file, out-of-root path
and ENOTDIR all yield null. -/
def fsGetAlarm (root : String) (sanitise : Bool) (fs : FS) : Option JsNumVal :=
  match keyPath root sanitise "__MINIFLARE_ALARM__" with
  | (none, _) => none
  | (some filePath, _) =>
    match readFileM fs filePath with
    | .error _ => none
    | .ok none => none
    | .ok (some f) => some (jsNumber (fileText f))

/-- FileStorage.setAlarm (lines 188-214): resolve the reserved key's path
through the ordinary mapping and write String(scheduledTime) as the value file,
turning EEXIST into the namespace-collision error. -/
def fsSetAlarm (root : String) (sanitise : Bool) (scheduledTime : Int) (fs : FS) :
    Except FsErr FS :=
  match keyPath root sanitise "__MINIFLARE_ALARM__" with
  | (none, _) => .error .traversal
  | (some filePath, _) =>
    match writeFileM fs filePath (.dataFile (intDecimal scheduledTime)) with
    | .error .eexist => .error .namespaceKeyChild
    | .error c => .error (.raw c)
    | .ok fs1 => .ok fs1

/-- A path is outside the storage root directory when it is neither the root
itself nor located under it. -/
def outsideRoot (root p : String) : Bool :=
  !(p == root || strStartsWith p (root ++ "/"))

theorem ancestorIsFile_erase (fs : FS) (q p : String)
    (h : ancestorIsFile fs p = false) :
    ancestorIsFile (fsErase fs q) p = false := by
  induction fs with
  | nil => simpa using h
  | cons head rest ih =>
    obtain ⟨k, f⟩ := head
    simp only [ancestorIsFile, Bool.or_eq_false_iff] at h
    unfold fsErase
    by_cases hq : q = k
    · rw [if_pos hq]
      exact h.2
    · rw [if_neg hq]
      simp only [ancestorIsFile, Bool.or_eq_false_iff]
      exact ⟨h.1, ih h.2⟩

/-! ## Claim C9 -/

/-- Claim C9 (amended): the backing engine's put rejects with the distinct
Traversal error exactly when the resolved path fails the source's check — the
path must have the storage root as a STRING prefix; in that case the error path
produces no filesystem (no file is created) and a read of such a key returns
not-found.  (The unamended claim quantifies over every key whose resolved path
falls outside the root DIRECTORY; the string-prefix check also admits sibling
paths such as /rootx under root /root, see the counterexample.) -/
theorem c9_traversal_guard (root : String) (sanitise : Bool) (key : String)
    (v : FsStoredValueMeta) (fs : FS)
    (h : (keyPath root sanitise key).1 = none) :
    fsPut root sanitise key v fs = .error .traversal ∧
    fsGetMaybeExpired root sanitise key fs = none := by
  constructor
  · unfold fsPut
    split
    · rfl
    · rename_i fp sb heq
      rw [heq] at h
      simp at h
  · unfold fsGetMaybeExpired
    split
    · rfl
    · rename_i fp sb heq
      rw [heq] at h
      simp at h

/-- Claim C9 witness: with sanitisation disabled, the key "../x" under root
"/root" resolves to "/x", which fails the prefix check, so put reports the
Traversal error and a read reports not-found. -/
theorem c9_traversal_guard_witness :
    (keyPath "/root" false "../x").1 = none ∧
    fsPut "/root" false "../x" { value := "v" } [] = .error .traversal ∧
    fsGetMaybeExpired "/root" false "../x" [] = none := by
  have h := c9_traversal_guard "/root" false "../x" { value := "v" } [] (by decide)
  exact ⟨by decide, h.1, h.2⟩

/-- Claim C9 counterexample: with sanitisation disabled (a mode the constructor
explicitly supports), the key "../rootx" under root "/root" resolves to
"/rootx" — OUTSIDE the root directory — yet it has "/root" as a string prefix,
so the startsWith check passes and put succeeds, creating a file at /rootx
instead of rejecting with a Traversal error.  The unamended claim is false at
this input. -/
theorem c9_prefix_check_counterexample :
    outsideRoot "/root" (pathJoin "/root" "../rootx") = true ∧
    fsPut "/root" false "../rootx" { value := "v" } [] =
      .ok [("/rootx", .dataFile "v")] := by
  exact ⟨by decide, rfl⟩

/-! ## Claim C10 -/

/-- Claim C10: the reserved alarm key is not isolated from the ordinary key
namespace.  The alarm is stored under the plain key "__MINIFLARE_ALARM__"
through the same key-to-path mapping as user data: an ordinary put of that key
with value bytes b makes a subsequent getAlarm return the number parsed (by the
Number builtin) from the UTF-8 decoding of b, and setAlarm t makes an ordinary
read of that key observe the textual encoding of t.  Stated over an arbitrary
prior filesystem in which no regular file sits above the alarm paths (otherwise
the write itself fails), with the root resolved to /data. -/
theorem c10_alarm_key_not_isolated (fs : FS) (v : FsStoredValueMeta) (t : Int)
    (h1 : ancestorIsFile fs "/data/__MINIFLARE_ALARM__" = false)
    (h2 : ancestorIsFile fs ("/data/__MINIFLARE_ALARM__" ++ metaSuffix) = false) :
    (∃ fs', fsPut "/data" true "__MINIFLARE_ALARM__" v fs = .ok fs' ∧
      fsGetAlarm "/data" true fs' = some (jsNumber v.value)) ∧
    (∃ fs', fsSetAlarm "/data" true t fs = .ok fs' ∧
      (fsGetMaybeExpired "/data" true "__MINIFLARE_ALARM__" fs').map (fun r => r.value) =
        some (intDecimal t)) := by
  have hkp : keyPath "/data" true "__MINIFLARE_ALARM__" =
      (some "/data/__MINIFLARE_ALARM__", false) := by decide
  have hd1 : ("/data/__MINIFLARE_ALARM__" : String) ≠ "/data/__MINIFLARE_ALARM__" ++ metaSuffix := by
    decide
  have hd2 : ("/data/__MINIFLARE_ALARM__" ++ metaSuffix : String) ≠ "/data/__MINIFLARE_ALARM__" := by
    decide
  have hs1 : strStartsWith ("/data/__MINIFLARE_ALARM__" ++ metaSuffix)
      "/data/__MINIFLARE_ALARM__/" = false := by decide
  have hs2 : strStartsWith "/data/__MINIFLARE_ALARM__"
      ("/data/__MINIFLARE_ALARM__" ++ metaSuffix ++ "/") = false := by decide
  have herase := ancestorIsFile_erase fs "/data/__MINIFLARE_ALARM__"
    ("/data/__MINIFLARE_ALARM__" ++ metaSuffix) h2
  constructor
  · by_cases hb : (v.expiration.isSome || v.metadata.isSome) = true
    · refine ⟨("/data/__MINIFLARE_ALARM__" ++ metaSuffix,
          .metaFile (some "__MINIFLARE_ALARM__") v.expiration v.metadata) ::
          fsErase (("/data/__MINIFLARE_ALARM__", .dataFile v.value) ::
            fsErase fs "/data/__MINIFLARE_ALARM__")
            ("/data/__MINIFLARE_ALARM__" ++ metaSuffix), ?_, ?_⟩
      · simp [fsPut, hkp, writeFileM, h1, hb, ancestorIsFile, hs1, herase]
      · simp [fsGetAlarm, hkp, readFileM, fsLookup, fsErase, hd1, hd2, fileText]
    · rw [Bool.not_eq_true] at hb
      refine ⟨("/data/__MINIFLARE_ALARM__", .dataFile v.value) ::
          fsErase (fsErase fs "/data/__MINIFLARE_ALARM__")
            ("/data/__MINIFLARE_ALARM__" ++ metaSuffix), ?_, ?_⟩
      · simp [fsPut, hkp, writeFileM, h1, hb, deleteFileM, ancestorIsFile, hs1,
          herase, fsErase, hd2]
      · simp [fsGetAlarm, hkp, readFileM, fsLookup, fileText]
  · refine ⟨("/data/__MINIFLARE_ALARM__", .dataFile (intDecimal t)) ::
        fsErase fs "/data/__MINIFLARE_ALARM__", ?_, ?_⟩
    · simp [fsSetAlarm, hkp, writeFileM, h1]
    · cases hst : fsLookup (fsErase fs "/data/__MINIFLARE_ALARM__")
          ("/data/__MINIFLARE_ALARM__" ++ metaSuffix) with
      | none =>
        simp [fsGetMaybeExpired, hkp, readFileM, fsLookup, hd1, hd2, hst,
          ancestorIsFile, hs1, herase, fileText, fsMetaOf]
      | some mf =>
        simp [fsGetMaybeExpired, hkp, readFileM, fsLookup, hd1, hd2, hst, fileText]

/-- Claim C10 witness: on the empty filesystem, putting "99" under the alarm key
makes getAlarm return 99, and setAlarm 1709 makes an ordinary read observe
"1709". -/
theorem c10_alarm_key_not_isolated_witness :
    ancestorIsFile [] "/data/__MINIFLARE_ALARM__" = false ∧
    ancestorIsFile [] ("/data/__MINIFLARE_ALARM__" ++ metaSuffix) = false ∧
    ((∃ fs', fsPut "/data" true "__MINIFLARE_ALARM__" { value := "99" } [] = .ok fs' ∧
        fsGetAlarm "/data" true fs' = some (jsNumber "99")) ∧
      (∃ fs', fsSetAlarm "/data" true 1709 [] = .ok fs' ∧
        (fsGetMaybeExpired "/data" true "__MINIFLARE_ALARM__" fs').map (fun r => r.value) =
          some (intDecimal 1709))) :=
  ⟨rfl, rfl, c10_alarm_key_not_isolated [] { value := "99" } 1709 rfl rfl⟩

end MF
